import Mathlib

/-!
Shallow embedding of `retroarch_nci.py`, a UDP client for RetroArch's
network command interface (NCI), together with proofs of the testable
properties stated in the specification.

Python strings are modelled as `List Char`; datagrams as `List Nat`
(byte values); the transport (socket send/receive) as an abstract
`TransportOutcome` oracle, since the client opens a fresh socket per
call and its visible behaviour depends only on whether a datagram
arrived, a timeout occurred, or a socket-level error was raised.
Python's unbounded `int` is modelled as `Int`; its bitwise `|` on
possibly-negative operands (two's complement) is `pyOr` below, and
`x << k` is `x * 2 ^ k`, which agrees with Python's shift for every
sign of `x`.
-/

/-! ### Python string and integer primitives -/

/-- Characters Python's `str.split()`, `str.strip()` and `int()` treat as
whitespace (Unicode whitespace, as in CPython's `Py_UNICODE_ISSPACE`). -/
def pyWhitespace : List Char :=
  [' ', '\t', '\n', '\r', '\x0b', '\x0c', '\x1c', '\x1d', '\x1e', '\x1f',
   '\x85', '\xa0',
   '\u1680', '\u2000', '\u2001', '\u2002', '\u2003', '\u2004', '\u2005',
   '\u2006', '\u2007', '\u2008', '\u2009', '\u200a', '\u2028', '\u2029',
   '\u202f', '\u205f', '\u3000']

def pyIsSpace (c : Char) : Bool := pyWhitespace.contains c

/-- Helper for `pySplit`: the accumulator holds the current token reversed. -/
def pySplitAux : List Char → List Char → List (List Char)
  | [], acc => if acc = [] then [] else [acc.reverse]
  | c :: rest, acc =>
    if pyIsSpace c then
      if acc = [] then pySplitAux rest [] else acc.reverse :: pySplitAux rest []
    else pySplitAux rest (c :: acc)

/-- Python `s.split()` with no argument: maximal runs of non-whitespace
characters; leading, trailing and repeated whitespace produce no empty
tokens. -/
def pySplit (s : List Char) : List (List Char) := pySplitAux s []

/-- Python `s.strip()`: remove leading and trailing whitespace. -/
def pyStrip (s : List Char) : List Char :=
  ((s.dropWhile pyIsSpace).reverse.dropWhile pyIsSpace).reverse

/-- Python `bytes.decode("ascii", errors="replace")`: bytes below 0x80 map
to themselves, all others to U+FFFD REPLACEMENT CHARACTER. -/
def decodeAsciiReplace (data : List Nat) : List Char :=
  data.map (fun b => if b < 128 then Char.ofNat b else '\uFFFD')

/-- A character Python's `str.encode("ascii")` accepts. -/
def isAsciiChar (c : Char) : Bool := c.toNat < 128

def isHexDigitChar (c : Char) : Bool :=
  ('0' ≤ c ∧ c ≤ '9') ∨ ('a' ≤ c ∧ c ≤ 'f') ∨ ('A' ≤ c ∧ c ≤ 'F')

def hexDigitVal (c : Char) : Nat :=
  if '0' ≤ c ∧ c ≤ '9' then c.toNat - '0'.toNat
  else if 'a' ≤ c ∧ c ≤ 'f' then c.toNat - 'a'.toNat + 10
  else c.toNat - 'A'.toNat + 10

/-- Hex digits after the first one: single underscores are permitted
between digits, never doubled, leading or trailing. -/
def parseHexRun : List Char → Nat → Option Nat
  | [], acc => some acc
  | '_' :: c :: rest, acc =>
    if isHexDigitChar c then parseHexRun rest (acc * 16 + hexDigitVal c) else none
  | ['_'], _ => none
  | c :: rest, acc =>
    if isHexDigitChar c then parseHexRun rest (acc * 16 + hexDigitVal c) else none

/-- A nonempty run of hex digits (with optional interior underscores),
starting at the first character. -/
def parseHexBody : List Char → Option Nat
  | [] => none
  | c :: rest => if isHexDigitChar c then parseHexRun rest (hexDigitVal c) else none

/-- Digits of `int(s, 16)` after the optional sign: an optional `0x`/`0X`
base marker (itself optionally followed by one underscore) and then the
digit run. -/
def parseHexAfterSign (cs : List Char) : Option Nat :=
  match cs with
  | '0' :: x :: rest =>
    if x = 'x' ∨ x = 'X' then
      match rest with
      | '_' :: rest2 => parseHexBody rest2
      | _ => parseHexBody rest
    else parseHexBody cs
  | _ => parseHexBody cs

/-- Python `int(s, 16)`: strip whitespace, optional sign, optional `0x`
marker, hex digits with optional single interior underscores; `none` when
CPython would raise `ValueError`. (On the strings this client can ever
see — ASCII plus U+FFFD, by `decodeAsciiReplace` — this is exact.) -/
def pyIntHex (s : List Char) : Option Int :=
  let cs := ((s.dropWhile pyIsSpace).reverse.dropWhile pyIsSpace).reverse
  match cs with
  | '+' :: rest => (parseHexAfterSign rest).map (Int.ofNat)
  | '-' :: rest => (parseHexAfterSign rest).map (fun n => -(Int.ofNat n))
  | _ => (parseHexAfterSign cs).map Int.ofNat

/-- Bitwise or on `Nat`, by structural recursion on a fuel argument so
that it evaluates inside the kernel; `natOrAux fuel n m` is correct
whenever `n ≤ fuel`. -/
def natOrAux : Nat → Nat → Nat → Nat
  | 0, _, m => m
  | fuel + 1, n, m =>
    if n = 0 then m
    else 2 * natOrAux fuel (n / 2) (m / 2) + (if n % 2 = 1 ∨ m % 2 = 1 then 1 else 0)

def natOr (n m : Nat) : Nat := natOrAux n n m

/-- Bitwise and on `Nat` (fuel-based, like `natOr`). -/
def natAndAux : Nat → Nat → Nat → Nat
  | 0, _, _ => 0
  | fuel + 1, n, m =>
    if n = 0 then 0
    else 2 * natAndAux fuel (n / 2) (m / 2) + (if n % 2 = 1 ∧ m % 2 = 1 then 1 else 0)

def natAnd (n m : Nat) : Nat := natAndAux n n m

/-- Bitwise difference `n AND NOT m` on `Nat` (fuel-based). -/
def natLdiffAux : Nat → Nat → Nat → Nat
  | 0, _, _ => 0
  | fuel + 1, n, m =>
    if n = 0 then 0
    else 2 * natLdiffAux fuel (n / 2) (m / 2) + (if n % 2 = 1 ∧ m % 2 = 0 then 1 else 0)

def natLdiff (n m : Nat) : Nat := natLdiffAux n n m

/-- Python's bitwise `|` on unbounded integers: two's-complement or. -/
def pyOr : Int → Int → Int
  | .ofNat m, .ofNat n => .ofNat (natOr m n)
  | .ofNat m, .negSucc n => .negSucc (natLdiff n m)
  | .negSucc m, .ofNat n => .negSucc (natLdiff m n)
  | .negSucc m, .negSucc n => .negSucc (natAnd m n)

/-- Uppercase hexadecimal digit for a value below 16, as in Python's
`"%X"` formatting. -/
def hexDigitUpper (n : Nat) : Char :=
  if n < 10 then Char.ofNat (48 + n) else Char.ofNat (55 + n)

/-- Helper for `natHexUpper`, structural in a fuel argument; `fuel = n`
always suffices because the number of hex digits of `n` is at most `n`. -/
def natHexUpperAux : Nat → Nat → List Char → List Char
  | 0, n, acc => hexDigitUpper n :: acc
  | fuel + 1, n, acc =>
    if n < 16 then hexDigitUpper n :: acc
    else natHexUpperAux fuel (n / 16) (hexDigitUpper (n % 16) :: acc)

/-- Uppercase hexadecimal rendering of a natural number, no `0x` marker,
no leading zeros (`0` renders as `"0"`), as in Python's `f"{n:X}"`. -/
def natHexUpper (n : Nat) : List Char := natHexUpperAux n n []

/-- Python `f"{n:X}"` on a possibly negative `int`. -/
def pyFormatX (n : Int) : List Char :=
  if n < 0 then '-' :: natHexUpper n.natAbs else natHexUpper n.toNat

/-- Python `f"{n:02X}"`: zero-pad the digits to width two (the sign, when
present, counts toward the width, as in CPython). -/
def pyFormat02X (n : Int) : List Char :=
  if n < 0 then
    let d := natHexUpper n.natAbs
    if d.length + 1 < 2 then '-' :: '0' :: d else '-' :: d
  else
    let d := natHexUpper n.toNat
    if d.length < 2 then '0' :: d else d

/-- Python `str(n)` for an `int` (decimal, `-` sign for negatives).
`Nat.toDigits 10` is structurally recursive and base ten produces plain
decimal digits, matching CPython. -/
def pyStrInt (n : Int) : List Char :=
  if n < 0 then '-' :: Nat.toDigits 10 n.natAbs else Nat.toDigits 10 n.toNat

/-! ### The opcode catalog (`NCICommand`) -/

/-- The `NCICommand` enumeration from the source: the closed catalog of
opcode names. -/
inductive NCICommand where
  | VERSION
  | GET_STATUS
  | GET_CONFIG_PARAM
  | SHOW_MESG
  | SET_SHADER
  | READ_CORE_MEMORY
  | WRITE_CORE_MEMORY
  | LOAD_STATE_SLOT
  | PLAY_REPLAY_SLOT
  | MENU_TOGGLE
  | QUIT
  | CLOSE_CONTENT
  | RESET
  | FAST_FORWARD
  | FAST_FORWARD_HOLD
  | SLOWMOTION
  | SLOWMOTION_HOLD
  | REWIND
  | PAUSE_TOGGLE
  | FRAMEADVANCE
  | MUTE
  | VOLUME_UP
  | VOLUME_DOWN
  | LOAD_STATE
  | SAVE_STATE
  | STATE_SLOT_PLUS
  | STATE_SLOT_MINUS
  | PLAY_REPLAY
  | RECORD_REPLAY
  | HALT_REPLAY
  | REPLAY_SLOT_PLUS
  | REPLAY_SLOT_MINUS
  | DISK_EJECT_TOGGLE
  | DISK_NEXT
  | DISK_PREV
  | SHADER_TOGGLE
  | SHADER_NEXT
  | SHADER_PREV
  | CHEAT_TOGGLE
  | CHEAT_INDEX_PLUS
  | CHEAT_INDEX_MINUS
  | SCREENSHOT
  | RECORDING_TOGGLE
  | STREAMING_TOGGLE
  | GRAB_MOUSE_TOGGLE
  | GAME_FOCUS_TOGGLE
  | FULLSCREEN_TOGGLE
  | UI_COMPANION_TOGGLE
  | VRR_RUNLOOP_TOGGLE
  | RUNAHEAD_TOGGLE
  | PREEMPT_TOGGLE
  | FPS_TOGGLE
  | STATISTICS_TOGGLE
  | AI_SERVICE
  | NETPLAY_PING_TOGGLE
  | NETPLAY_HOST_TOGGLE
  | NEPLAY_GAME_WATCH
  | NETPLAY_PLAYER_CHAT
  | NETPLAY_FADE_CHAT_TOGGLE
  | MENU_UP
  | MENU_DOWN
  | MENU_LEFT
  | MENU_RIGHT
  | MENU_A
  | MENU_B
  | OVERLAY_NEXT
  | OSK
deriving DecidableEq

/-- The `.name` of an `NCICommand` member: the constructor's own name,
which is what the source places on the wire. -/
def NCICommand.name : NCICommand → List Char
  | .VERSION => "VERSION".toList
  | .GET_STATUS => "GET_STATUS".toList
  | .GET_CONFIG_PARAM => "GET_CONFIG_PARAM".toList
  | .SHOW_MESG => "SHOW_MESG".toList
  | .SET_SHADER => "SET_SHADER".toList
  | .READ_CORE_MEMORY => "READ_CORE_MEMORY".toList
  | .WRITE_CORE_MEMORY => "WRITE_CORE_MEMORY".toList
  | .LOAD_STATE_SLOT => "LOAD_STATE_SLOT".toList
  | .PLAY_REPLAY_SLOT => "PLAY_REPLAY_SLOT".toList
  | .MENU_TOGGLE => "MENU_TOGGLE".toList
  | .QUIT => "QUIT".toList
  | .CLOSE_CONTENT => "CLOSE_CONTENT".toList
  | .RESET => "RESET".toList
  | .FAST_FORWARD => "FAST_FORWARD".toList
  | .FAST_FORWARD_HOLD => "FAST_FORWARD_HOLD".toList
  | .SLOWMOTION => "SLOWMOTION".toList
  | .SLOWMOTION_HOLD => "SLOWMOTION_HOLD".toList
  | .REWIND => "REWIND".toList
  | .PAUSE_TOGGLE => "PAUSE_TOGGLE".toList
  | .FRAMEADVANCE => "FRAMEADVANCE".toList
  | .MUTE => "MUTE".toList
  | .VOLUME_UP => "VOLUME_UP".toList
  | .VOLUME_DOWN => "VOLUME_DOWN".toList
  | .LOAD_STATE => "LOAD_STATE".toList
  | .SAVE_STATE => "SAVE_STATE".toList
  | .STATE_SLOT_PLUS => "STATE_SLOT_PLUS".toList
  | .STATE_SLOT_MINUS => "STATE_SLOT_MINUS".toList
  | .PLAY_REPLAY => "PLAY_REPLAY".toList
  | .RECORD_REPLAY => "RECORD_REPLAY".toList
  | .HALT_REPLAY => "HALT_REPLAY".toList
  | .REPLAY_SLOT_PLUS => "REPLAY_SLOT_PLUS".toList
  | .REPLAY_SLOT_MINUS => "REPLAY_SLOT_MINUS".toList
  | .DISK_EJECT_TOGGLE => "DISK_EJECT_TOGGLE".toList
  | .DISK_NEXT => "DISK_NEXT".toList
  | .DISK_PREV => "DISK_PREV".toList
  | .SHADER_TOGGLE => "SHADER_TOGGLE".toList
  | .SHADER_NEXT => "SHADER_NEXT".toList
  | .SHADER_PREV => "SHADER_PREV".toList
  | .CHEAT_TOGGLE => "CHEAT_TOGGLE".toList
  | .CHEAT_INDEX_PLUS => "CHEAT_INDEX_PLUS".toList
  | .CHEAT_INDEX_MINUS => "CHEAT_INDEX_MINUS".toList
  | .SCREENSHOT => "SCREENSHOT".toList
  | .RECORDING_TOGGLE => "RECORDING_TOGGLE".toList
  | .STREAMING_TOGGLE => "STREAMING_TOGGLE".toList
  | .GRAB_MOUSE_TOGGLE => "GRAB_MOUSE_TOGGLE".toList
  | .GAME_FOCUS_TOGGLE => "GAME_FOCUS_TOGGLE".toList
  | .FULLSCREEN_TOGGLE => "FULLSCREEN_TOGGLE".toList
  | .UI_COMPANION_TOGGLE => "UI_COMPANION_TOGGLE".toList
  | .VRR_RUNLOOP_TOGGLE => "VRR_RUNLOOP_TOGGLE".toList
  | .RUNAHEAD_TOGGLE => "RUNAHEAD_TOGGLE".toList
  | .PREEMPT_TOGGLE => "PREEMPT_TOGGLE".toList
  | .FPS_TOGGLE => "FPS_TOGGLE".toList
  | .STATISTICS_TOGGLE => "STATISTICS_TOGGLE".toList
  | .AI_SERVICE => "AI_SERVICE".toList
  | .NETPLAY_PING_TOGGLE => "NETPLAY_PING_TOGGLE".toList
  | .NETPLAY_HOST_TOGGLE => "NETPLAY_HOST_TOGGLE".toList
  | .NEPLAY_GAME_WATCH => "NEPLAY_GAME_WATCH".toList
  | .NETPLAY_PLAYER_CHAT => "NETPLAY_PLAYER_CHAT".toList
  | .NETPLAY_FADE_CHAT_TOGGLE => "NETPLAY_FADE_CHAT_TOGGLE".toList
  | .MENU_UP => "MENU_UP".toList
  | .MENU_DOWN => "MENU_DOWN".toList
  | .MENU_LEFT => "MENU_LEFT".toList
  | .MENU_RIGHT => "MENU_RIGHT".toList
  | .MENU_A => "MENU_A".toList
  | .MENU_B => "MENU_B".toList
  | .OVERLAY_NEXT => "OVERLAY_NEXT".toList
  | .OSK => "OSK".toList

/-! ### The client (`RetroArchNCI`) -/

/-- What the transport does on one `_send` call: a datagram arrives
(`received`), the receive times out (`timeout`), or some other
socket-level error is raised (`socketError`). The client opens a fresh
socket per call, so one outcome per call captures the transport. -/
inductive TransportOutcome where
  | received (data : List Nat)
  | timeout
  | socketError
deriving DecidableEq

/-- The `(host, port, timeout)` triple held by a client instance. It is
never consulted by any decoding logic, only handed to the socket layer. -/
structure RetroArchNCI where
  host : List Char
  port : Int
  timeout : Int

/-- The source's `_send`: encode the message as ASCII and transmit;
return `none` without waiting when no response is expected; otherwise
return the received datagram decoded with ASCII-replace and stripped, or
`none` on timeout or any other exception (`socket.timeout` and the
catch-all `except Exception` both return `None`, and a message that
`encode("ascii")` rejects lands in the same catch-all). -/
def RetroArchNCI._send (msg : List Char) (outcome : TransportOutcome)
    (expect_response : Bool) : Option (List Char) :=
  if ¬ msg.all isAsciiChar then none
  else if ¬ expect_response then none
  else
    match outcome with
    | .received data => some (pyStrip (decodeAsciiReplace data))
    | .timeout => none
    | .socketError => none

/-- The Command Message built by `cmd`: the opcode's name, then — only
when arguments are present — a space and the space-joined arguments.
Arguments are modelled already rendered by `str` (`map(str, args)`). -/
def RetroArchNCI.cmdMsg (command : NCICommand) (args : List (List Char)) : List Char :=
  if args ≠ [] then command.name ++ ' ' :: List.intercalate [' '] args
  else command.name

/-- The source's `cmd`: build the Command Message and delegate to `_send`. -/
def RetroArchNCI.cmd (command : NCICommand) (args : List (List Char))
    (outcome : TransportOutcome) (expect_response : Bool) : Option (List Char) :=
  RetroArchNCI._send (RetroArchNCI.cmdMsg command args) outcome expect_response

/-- The duck-typed first argument of `send_nci_command`: either a catalog
member or a raw command-name string. -/
inductive CmdOrStr where
  | known (c : NCICommand)
  | raw (s : List Char)

/-- The Command Message built by `send_nci_command`: the `cmd` message for
a catalog member, and for a raw string the same shape with the string
itself as the name. -/
def RetroArchNCI.sendNciMsg : CmdOrStr → List (List Char) → List Char
  | .known c, args => RetroArchNCI.cmdMsg c args
  | .raw s, args =>
    if args ≠ [] then s ++ ' ' :: List.intercalate [' '] args else s

/-- The source's `send_nci_command`: dispatch on the dynamic type of the
first argument and delegate to `cmd` or `_send`. -/
def RetroArchNCI.send_nci_command (c : CmdOrStr) (args : List (List Char))
    (outcome : TransportOutcome) (expect_response : Bool) : Option (List Char) :=
  match c with
  | .known cc => RetroArchNCI.cmd cc args outcome expect_response
  | .raw s =>
    RetroArchNCI._send (RetroArchNCI.sendNciMsg (.raw s) args) outcome expect_response

/-- The polling loop of `wait_for_ready`, one constructor step per
attempt. Real time is abstracted: `fuel` is the number of iterations the
`time.time() - start < timeout_sec` guard allows, and `outcomes i` is the
transport's behaviour on the `i`-th `VERSION` poll. -/
def RetroArchNCI.waitLoop (outcomes : Nat → TransportOutcome) : Nat → Nat → Bool
  | _, 0 => false
  | i, fuel + 1 =>
    match RetroArchNCI.send_nci_command (.known .VERSION) [] (outcomes i) true with
    | some _ => true
    | none => RetroArchNCI.waitLoop outcomes (i + 1) fuel

/-- The source's `wait_for_ready`: poll `VERSION` until a non-`None`
response or until the time budget (here: attempt budget) is exhausted. -/
def RetroArchNCI.wait_for_ready (outcomes : Nat → TransportOutcome) (attempts : Nat) : Bool :=
  RetroArchNCI.waitLoop outcomes 0 attempts

/-- The request line of `read_core_memory`:
`f"READ_CORE_MEMORY {address:X} {size}"`. -/
def RetroArchNCI.read_core_memory_msg (address : Int) (size : Int) : List Char :=
  "READ_CORE_MEMORY ".toList ++ pyFormatX address ++ ' ' :: pyStrInt size

/-- The little-endian accumulation loop of `read_core_memory`:
`val |= int(b, 16) << (8 * i)`, aborting with `none` on the first token
`int(·, 16)` rejects (the `except ValueError` path). -/
def RetroArchNCI.assembleLE : List (List Char) → Nat → Int → Option Int
  | [], _, val => some val
  | b :: rest, i, val =>
    match pyIntHex b with
    | none => none
    | some bv => RetroArchNCI.assembleLE rest (i + 1) (pyOr val (bv * 2 ^ (8 * i)))

/-- The response-decoding half of `read_core_memory` (everything after
`resp = self._send(cmd)` in the source): `None` stays `None`; fewer than
3 whitespace tokens is `None`; a sole byte token `"-1"` (the source's
`len(byte_parts) == 1 and byte_parts[0] == "-1"`) is `None`; otherwise
the little-endian assembly, `None` on any hex-parse failure. -/
def RetroArchNCI.read_core_memory_parse (resp : Option (List Char)) : Option Int :=
  match resp with
  | none => none
  | some r =>
    let parts := pySplit r
    if parts.length < 3 then none
    else
      let byte_parts := parts.drop 2
      if byte_parts = ["-1".toList] then none
      else RetroArchNCI.assembleLE byte_parts 0 0

/-- The source's `read_core_memory`: issue the request and decode the
response. -/
def RetroArchNCI.read_core_memory (address : Int) (size : Int)
    (outcome : TransportOutcome) : Option Int :=
  RetroArchNCI.read_core_memory_parse
    (RetroArchNCI._send (RetroArchNCI.read_core_memory_msg address size) outcome true)

/-- The request line of `write_core_memory`:
`f"WRITE_CORE_MEMORY {address:X} {hex_bytes}"` where `hex_bytes` is
`" ".join(f"{b:02X}" for b in bytes_list)`. -/
def RetroArchNCI.write_core_memory_msg (address : Int) (bytes_list : List Int) : List Char :=
  "WRITE_CORE_MEMORY ".toList ++ pyFormatX address ++
    ' ' :: List.intercalate [' '] (bytes_list.map pyFormat02X)

/-- The source's `write_core_memory`: issue the request and return the raw
response (or `None`), with no interpretation. -/
def RetroArchNCI.write_core_memory (address : Int) (bytes_list : List Int)
    (outcome : TransportOutcome) : Option (List Char) :=
  RetroArchNCI._send (RetroArchNCI.write_core_memory_msg address bytes_list) outcome true

/-- All hex values a token list parses to, in order; `none` when some
token fails. Used to state the success path of `read_core_memory`. -/
def parseAllHex : List (List Char) → Option (List Int)
  | [] => some []
  | t :: ts =>
    match pyIntHex t, parseAllHex ts with
    | some v, some vs => some (v :: vs)
    | _, _ => none

/-- Little-endian assembly of already-parsed values, starting at byte
index `i` with accumulator `val`: the loop of `read_core_memory` with the
parsing already done. -/
def leAssembleFrom : List Int → Nat → Int → Int
  | [], _, val => val
  | v :: rest, i, val => leAssembleFrom rest (i + 1) (pyOr val (v * 2 ^ (8 * i)))

/-- Little-endian assembly of a value list: value `i` contributes
`v_i << (8 * i)`, folded with Python's `|=`. -/
def leAssemble (vals : List Int) : Int := leAssembleFrom vals 0 0

/-- An uppercase hexadecimal digit character (`0`-`9` or `A`-`F`). -/
def isUpperHexDigit (c : Char) : Bool :=
  ('0' ≤ c ∧ c ≤ '9') ∨ ('A' ≤ c ∧ c ≤ 'F')

/-! ### Helper lemmas -/

theorem assembleLE_eq_of_parseAllHex :
    ∀ (ts : List (List Char)) (vals : List Int) (i : Nat) (val : Int),
      parseAllHex ts = some vals →
      RetroArchNCI.assembleLE ts i val = some (leAssembleFrom vals i val) := by
  intro ts
  induction ts with
  | nil =>
    intro vals i val h
    simp [parseAllHex] at h
    subst h
    simp [RetroArchNCI.assembleLE, leAssembleFrom]
  | cons t ts ih =>
    intro vals i val h
    simp only [parseAllHex] at h
    cases hv : pyIntHex t with
    | none => rw [hv] at h; exact absurd h (by simp)
    | some v =>
      rw [hv] at h
      cases hvs : parseAllHex ts with
      | none => rw [hvs] at h; exact absurd h (by simp)
      | some vs =>
        rw [hvs] at h
        simp only [Option.some.injEq] at h
        subst h
        simp only [RetroArchNCI.assembleLE, hv, leAssembleFrom]
        exact ih vs (i + 1) (pyOr val (v * 2 ^ (8 * i))) hvs

theorem assembleLE_none_of_mem :
    ∀ (ts : List (List Char)) (b : List Char), b ∈ ts → pyIntHex b = none →
      ∀ (i : Nat) (val : Int), RetroArchNCI.assembleLE ts i val = none := by
  intro ts
  induction ts with
  | nil => intro b hb; exact absurd hb (by simp)
  | cons t ts ih =>
    intro b hb hfail i val
    rcases List.mem_cons.mp hb with h | h
    · subst h
      simp [RetroArchNCI.assembleLE, hfail]
    · cases hv : pyIntHex t with
      | none => simp [RetroArchNCI.assembleLE, hv]
      | some v =>
        simp only [RetroArchNCI.assembleLE, hv]
        exact ih b h hfail (i + 1) (pyOr val (v * 2 ^ (8 * i)))

theorem intercalate_space_cons (x : List Char) (xs : List (List Char)) :
    List.intercalate [' '] (x :: xs) =
      if xs = [] then x else x ++ ' ' :: List.intercalate [' '] xs := by
  cases xs with
  | nil => simp [List.intercalate, List.intersperse]
  | cons y ys => simp [List.intercalate, List.intersperse]

theorem mem_intercalate_space {c : Char} :
    ∀ {ts : List (List Char)}, c ∈ List.intercalate [' '] ts →
      c = ' ' ∨ ∃ t ∈ ts, c ∈ t := by
  intro ts
  induction ts with
  | nil => intro h; simp [List.intercalate] at h
  | cons x xs ih =>
    intro h
    rw [intercalate_space_cons] at h
    by_cases hxs : xs = []
    · subst hxs
      simp only [if_pos rfl] at h
      exact Or.inr ⟨x, by simp, h⟩
    · rw [if_neg hxs] at h
      rcases List.mem_append.mp h with h | h
      · exact Or.inr ⟨x, by simp, h⟩
      · rcases List.mem_cons.mp h with h | h
        · exact Or.inl h
        · rcases ih h with h | ⟨t, ht, hc⟩
          · exact Or.inl h
          · exact Or.inr ⟨t, List.mem_cons_of_mem x ht, hc⟩

theorem name_no_newline : ∀ c : NCICommand, '\n' ∉ c.name := by
  intro c
  cases c <;> decide

theorem hexDigitUpper_upperHex : ∀ d < 16, isUpperHexDigit (hexDigitUpper d) = true := by
  decide

theorem natHexUpperAux_upperHex :
    ∀ (fuel n : Nat) (acc : List Char), n ≤ fuel →
      (∀ c ∈ acc, isUpperHexDigit c = true) →
      ∀ c ∈ natHexUpperAux fuel n acc, isUpperHexDigit c = true := by
  intro fuel
  induction fuel with
  | zero =>
    intro n acc hn hacc c hc
    interval_cases n
    simp only [natHexUpperAux, List.mem_cons] at hc
    rcases hc with h | h
    · subst h; decide
    · exact hacc c h
  | succ fuel ih =>
    intro n acc hn hacc c hc
    by_cases h16 : n < 16
    · simp only [natHexUpperAux, if_pos h16, List.mem_cons] at hc
      rcases hc with h | h
      · subst h; exact hexDigitUpper_upperHex n h16
      · exact hacc c h
    · simp only [natHexUpperAux, if_neg h16] at hc
      refine ih (n / 16) (hexDigitUpper (n % 16) :: acc) (by omega) ?_ c hc
      intro d hd
      rcases List.mem_cons.mp hd with h | h
      · subst h; exact hexDigitUpper_upperHex (n % 16) (Nat.mod_lt n (by omega))
      · exact hacc d h

theorem natHexUpper_upperHex (n : Nat) :
    ∀ c ∈ natHexUpper n, isUpperHexDigit c = true :=
  natHexUpperAux_upperHex n n [] (Nat.le_refl n) (by simp)

set_option maxRecDepth 8192 in
theorem pyFormat02X_two_digits :
    ∀ n < 256, (pyFormat02X (Int.ofNat n)).length = 2 ∧
      ∀ c ∈ pyFormat02X (Int.ofNat n), isUpperHexDigit c = true := by
  decide

theorem waitLoop_false (outcomes : Nat → TransportOutcome) :
    ∀ (fuel i : Nat),
      (∀ k < fuel, RetroArchNCI.send_nci_command (.known .VERSION) [] (outcomes (i + k)) true = none) →
      RetroArchNCI.waitLoop outcomes i fuel = false := by
  intro fuel
  induction fuel with
  | zero => intro i _; rfl
  | succ fuel ih =>
    intro i h
    have h0 := h 0 (Nat.succ_pos fuel)
    simp only [Nat.add_zero] at h0
    simp only [RetroArchNCI.waitLoop, h0]
    refine ih (i + 1) ?_
    intro k hk
    have := h (k + 1) (by omega)
    simpa [Nat.add_assoc, Nat.add_comm 1 k] using this

theorem waitLoop_true (outcomes : Nat → TransportOutcome) :
    ∀ (fuel i k : Nat), k < fuel →
      RetroArchNCI.send_nci_command (.known .VERSION) [] (outcomes (i + k)) true ≠ none →
      RetroArchNCI.waitLoop outcomes i fuel = true := by
  intro fuel
  induction fuel with
  | zero => intro i k hk; omega
  | succ fuel ih =>
    intro i k hk hresp
    cases hr : RetroArchNCI.send_nci_command (.known .VERSION) [] (outcomes i) true with
    | some v => simp [RetroArchNCI.waitLoop, hr]
    | none =>
      simp only [RetroArchNCI.waitLoop, hr]
      cases k with
      | zero => rw [Nat.add_zero] at hresp; exact absurd hr hresp
      | succ k =>
        refine ih (i + 1) k (by omega) ?_
        simpa [Nat.add_assoc, Nat.add_comm 1 k] using hresp

/-! ### Claim theorems -/

/-- Claim C1: for every success response to `read_core_memory` that splits
into at least 3 whitespace tokens whose byte tokens all parse as
hexadecimal (and is not the protocol's failure marker, whose sole byte
token is `-1`), the returned value is the little-endian assembly in which
byte token `i` contributes `byte_i << (8 * i)`, folded with `|=` exactly
as in the source; the witness instantiates this at the synthetic response
`READ_CORE_MEMORY 100 01 02 03`, whose decoded integer is `0x030201`. -/
theorem read_core_memory_little_endian_success (r : List Char) (vals : List Int)
    (h3 : 3 ≤ (pySplit r).length)
    (hvals : parseAllHex ((pySplit r).drop 2) = some vals)
    (hok : (pySplit r).drop 2 ≠ ["-1".toList]) :
    RetroArchNCI.read_core_memory_parse (some r) = some (leAssemble vals) := by
  simp only [RetroArchNCI.read_core_memory_parse]
  rw [if_neg (by omega), if_neg hok]
  exact assembleLE_eq_of_parseAllHex _ vals 0 0 hvals

theorem read_core_memory_little_endian_success_witness :
    3 ≤ (pySplit "READ_CORE_MEMORY 100 01 02 03".toList).length ∧
    parseAllHex ((pySplit "READ_CORE_MEMORY 100 01 02 03".toList).drop 2) = some [1, 2, 3] ∧
    (pySplit "READ_CORE_MEMORY 100 01 02 03".toList).drop 2 ≠ ["-1".toList] ∧
    RetroArchNCI.read_core_memory_parse (some "READ_CORE_MEMORY 100 01 02 03".toList) =
      some 0x030201 :=
  ⟨by decide, by decide, by decide,
    (read_core_memory_little_endian_success _ [1, 2, 3]
      (by decide) (by decide) (by decide)).trans (by decide)⟩

/-- Claim C2: every response whose whitespace tokens are a command name,
an address echo and the sole trailing byte token `-1` (such as
`READ_CORE_MEMORY 100 -1`) decodes to `none`, never to the integer `-1`. -/
theorem read_core_memory_failure_marker (r t0 t1 : List Char)
    (h : pySplit r = [t0, t1, "-1".toList]) :
    RetroArchNCI.read_core_memory_parse (some r) = none := by
  simp [RetroArchNCI.read_core_memory_parse, h]

theorem read_core_memory_failure_marker_witness :
    pySplit "READ_CORE_MEMORY 100 -1".toList =
      ["READ_CORE_MEMORY".toList, "100".toList, "-1".toList] ∧
    RetroArchNCI.read_core_memory_parse (some "READ_CORE_MEMORY 100 -1".toList) = none :=
  ⟨by decide,
    read_core_memory_failure_marker _ ("READ_CORE_MEMORY".toList) ("100".toList) (by decide)⟩

/-- Claim C3: `read_core_memory` decoding is a total function that never
raises: an absent response, a response with fewer than 3 whitespace
tokens, and a response with any byte token `int(·, 16)` rejects (over the
alphabet a decoded response can contain — ASCII plus U+FFFD) all decode
to `none`. -/
theorem read_core_memory_malformed_to_none :
    RetroArchNCI.read_core_memory_parse none = none ∧
    (∀ r : List Char, (pySplit r).length < 3 →
      RetroArchNCI.read_core_memory_parse (some r) = none) ∧
    (∀ (r b : List Char), b ∈ (pySplit r).drop 2 →
      (∀ c ∈ b, isAsciiChar c = true ∨ c = '\uFFFD') →
      pyIntHex b = none →
      RetroArchNCI.read_core_memory_parse (some r) = none) := by
  refine ⟨rfl, ?_, ?_⟩
  · intro r h
    simp [RetroArchNCI.read_core_memory_parse, if_pos h]
  · intro r b hb hdom hfail
    simp only [RetroArchNCI.read_core_memory_parse]
    by_cases h3 : (pySplit r).length < 3
    · rw [if_pos h3]
    · rw [if_neg h3]
      by_cases hg : (pySplit r).drop 2 = ["-1".toList]
      · rw [if_pos hg]
      · rw [if_neg hg]
        exact assembleLE_none_of_mem _ b hb hfail 0 0

theorem read_core_memory_malformed_to_none_witness :
    (pySplit "READ_CORE_MEMORY".toList).length < 3 ∧
    RetroArchNCI.read_core_memory_parse (some "READ_CORE_MEMORY".toList) = none ∧
    "zz".toList ∈ (pySplit "READ_CORE_MEMORY 100 zz".toList).drop 2 ∧
    pyIntHex "zz".toList = none ∧
    RetroArchNCI.read_core_memory_parse (some "READ_CORE_MEMORY 100 zz".toList) = none :=
  ⟨by decide, read_core_memory_malformed_to_none.2.1 _ (by decide), by decide, by decide,
    read_core_memory_malformed_to_none.2.2 _ ("zz".toList) (by decide) (by decide) (by decide)⟩

/-- Claim C4: for every non-negative address and non-empty list of byte
values in 0..255, `write_core_memory` emits
`WRITE_CORE_MEMORY <address uppercase hex, no 0x marker> <bytes>`, each
byte rendered as exactly two uppercase hexadecimal digits and the byte
renderings space-joined; the witness instantiates this at address `0x10`
and bytes `[1, 255]`, giving `WRITE_CORE_MEMORY 10 01 FF`. -/
theorem write_core_memory_message_format (address : Int) (bytes_list : List Int)
    (haddr : 0 ≤ address) (hne : bytes_list ≠ [])
    (hb : ∀ b ∈ bytes_list, 0 ≤ b ∧ b < 256) :
    RetroArchNCI.write_core_memory_msg address bytes_list =
      "WRITE_CORE_MEMORY ".toList ++ pyFormatX address ++
        ' ' :: List.intercalate [' '] (bytes_list.map pyFormat02X) ∧
    (∀ c ∈ pyFormatX address, isUpperHexDigit c = true) ∧
    (∀ b ∈ bytes_list, (pyFormat02X b).length = 2 ∧
      ∀ c ∈ pyFormat02X b, isUpperHexDigit c = true) := by
  refine ⟨rfl, ?_, ?_⟩
  · intro c hc
    simp only [pyFormatX] at hc
    rw [if_neg (by omega)] at hc
    exact natHexUpper_upperHex _ c hc
  · intro b hbmem
    obtain ⟨hb0, hb256⟩ := hb b hbmem
    have hcast : b = Int.ofNat b.toNat := (Int.toNat_of_nonneg hb0).symm
    rw [hcast]
    exact pyFormat02X_two_digits b.toNat (by omega)

theorem write_core_memory_message_format_witness :
    (0 : Int) ≤ 16 ∧ ([1, 255] : List Int) ≠ [] ∧
    (∀ b ∈ ([1, 255] : List Int), 0 ≤ b ∧ b < 256) ∧
    RetroArchNCI.write_core_memory_msg 16 [1, 255] = "WRITE_CORE_MEMORY 10 01 FF".toList ∧
    (∀ c ∈ pyFormatX 16, isUpperHexDigit c = true) :=
  ⟨by decide, by decide, by decide, by decide,
    (write_core_memory_message_format 16 [1, 255] (by decide) (by decide) (by decide)).2.1⟩

/-- Claim C10: for every address, `write_core_memory` with an empty byte
list still emits the command, as `WRITE_CORE_MEMORY <address hex> ` with a
trailing space and no byte tokens — the empty list is not rejected or
special-cased. -/
theorem write_core_memory_empty_bytes (address : Int) :
    RetroArchNCI.write_core_memory_msg address [] =
      "WRITE_CORE_MEMORY ".toList ++ pyFormatX address ++ [' '] := rfl

/-- Claim C5: `cmd` with zero arguments emits exactly the opcode's name
(no trailing space), and with arguments it emits the name followed by the
rendered arguments joined by single spaces (arguments are modelled after
the source's `map(str, args)` has rendered them). -/
theorem cmd_message_formatting :
    (∀ c : NCICommand, RetroArchNCI.cmdMsg c [] = c.name) ∧
    (∀ (c : NCICommand) (args : List (List Char)), args ≠ [] →
      RetroArchNCI.cmdMsg c args = c.name ++ ' ' :: List.intercalate [' '] args) := by
  constructor
  · intro c; simp [RetroArchNCI.cmdMsg]
  · intro c args h; simp [RetroArchNCI.cmdMsg, h]

theorem cmd_message_formatting_witness :
    RetroArchNCI.cmdMsg .VERSION [] = "VERSION".toList ∧
    (["Hello".toList, "2000".toList] : List (List Char)) ≠ [] ∧
    RetroArchNCI.cmdMsg .SHOW_MESG ["Hello".toList, "2000".toList] =
      "SHOW_MESG Hello 2000".toList :=
  ⟨(cmd_message_formatting.1 .VERSION).trans (by decide), by decide,
    (cmd_message_formatting.2 .SHOW_MESG ["Hello".toList, "2000".toList]
      (by decide)).trans (by decide)⟩

/-- Claim C8 (counterexample): the builders insert no newline themselves,
but they also never sanitize: an argument whose `str` rendering contains
a newline yields a Command Message with an embedded newline, so the
claim's universal form over all argument values is false. -/
theorem command_message_newline_counterexample :
    '\n' ∈ RetroArchNCI.cmdMsg .SHOW_MESG ["a\nb".toList] := by decide

/-- Claim C8 (amended): every Command Message built by `cmd` or
`send_nci_command` is exactly the opcode name (or raw name) and the
rendered arguments joined by single spaces; it contains no embedded
newline provided the raw name and each rendered argument contain none —
the builders themselves never introduce one, and no catalog name
contains one. -/
theorem command_message_single_space_join :
    (∀ (c : NCICommand) (args : List (List Char)),
      RetroArchNCI.cmdMsg c args = List.intercalate [' '] (c.name :: args)) ∧
    (∀ (s : List Char) (args : List (List Char)),
      RetroArchNCI.sendNciMsg (.raw s) args = List.intercalate [' '] (s :: args)) ∧
    (∀ (c : NCICommand) (args : List (List Char)),
      (∀ a ∈ args, '\n' ∉ a) → '\n' ∉ RetroArchNCI.cmdMsg c args) ∧
    (∀ (s : List Char) (args : List (List Char)),
      '\n' ∉ s → (∀ a ∈ args, '\n' ∉ a) → '\n' ∉ RetroArchNCI.sendNciMsg (.raw s) args) := by
  have hcmd : ∀ (c : NCICommand) (args : List (List Char)),
      RetroArchNCI.cmdMsg c args = List.intercalate [' '] (c.name :: args) := by
    intro c args
    by_cases h : args = [] <;>
      simp [RetroArchNCI.cmdMsg, h, intercalate_space_cons]
  have hraw : ∀ (s : List Char) (args : List (List Char)),
      RetroArchNCI.sendNciMsg (.raw s) args = List.intercalate [' '] (s :: args) := by
    intro s args
    by_cases h : args = [] <;>
      simp [RetroArchNCI.sendNciMsg, h, intercalate_space_cons]
  refine ⟨hcmd, hraw, ?_, ?_⟩
  · intro c args hargs hmem
    rw [hcmd] at hmem
    rcases mem_intercalate_space hmem with h | ⟨t, ht, hc⟩
    · exact absurd h (by decide)
    · rcases List.mem_cons.mp ht with h | h
      · subst h; exact name_no_newline c hc
      · exact hargs t h hc
  · intro s args hs hargs hmem
    rw [hraw] at hmem
    rcases mem_intercalate_space hmem with h | ⟨t, ht, hc⟩
    · exact absurd h (by decide)
    · rcases List.mem_cons.mp ht with h | h
      · subst h; exact hs hc
      · exact hargs t h hc

theorem command_message_single_space_join_witness :
    (∀ a ∈ [("Hello".toList : List Char), "2000".toList], '\n' ∉ a) ∧
    '\n' ∉ RetroArchNCI.cmdMsg .SHOW_MESG ["Hello".toList, "2000".toList] ∧
    '\n' ∉ RetroArchNCI.sendNciMsg (.raw "CUSTOM_CMD".toList) ["7".toList] :=
  ⟨by decide,
    command_message_single_space_join.2.2.1 .SHOW_MESG
      ["Hello".toList, "2000".toList] (by decide),
    command_message_single_space_join.2.2.2 ("CUSTOM_CMD".toList)
      ["7".toList] (by decide) (by decide)⟩

/-- Claim C6: `_send` is a total function of the transport outcome —
every timeout or socket-level failure is absorbed into `none` and no
exception escapes (the source catches `socket.timeout` and `Exception`,
and the un-encodable-message case lands in the same catch-all); on a
received datagram it returns the payload decoded as ASCII with lossy
replacement and stripped of surrounding whitespace. -/
theorem send_absorbs_transport_errors :
    (∀ msg : List Char, RetroArchNCI._send msg .timeout true = none) ∧
    (∀ msg : List Char, RetroArchNCI._send msg .socketError true = none) ∧
    (∀ (msg : List Char) (data : List Nat), msg.all isAsciiChar = true →
      RetroArchNCI._send msg (.received data) true =
        some (pyStrip (decodeAsciiReplace data))) := by
  refine ⟨?_, ?_, ?_⟩
  · intro msg
    by_cases h : msg.all isAsciiChar <;> simp [RetroArchNCI._send, h]
  · intro msg
    by_cases h : msg.all isAsciiChar <;> simp [RetroArchNCI._send, h]
  · intro msg data h
    simp [RetroArchNCI._send, h]

theorem send_absorbs_transport_errors_witness :
    ("VERSION".toList.all isAsciiChar = true) ∧
    RetroArchNCI._send "VERSION".toList
        (.received ("  1.19.1\n".toList.map Char.toNat)) true =
      some "1.19.1".toList :=
  ⟨by decide,
    (send_absorbs_transport_errors.2.2 "VERSION".toList
      ("  1.19.1\n".toList.map Char.toNat) (by decide)).trans (by decide)⟩

/-- Claim C7: `wait_for_ready` returns `false` when every `VERSION` poll
within the budget yields an absent response, and `true` as soon as any
polled attempt yields a non-absent response, even when earlier attempts
failed. Wall-clock time is abstracted into `attempts`, the number of
loop iterations the `timeout_sec` budget allows, with `outcomes i` the
transport's behaviour on poll `i`. -/
theorem wait_for_ready_poll_semantics (outcomes : Nat → TransportOutcome) (attempts : Nat) :
    ((∀ k < attempts,
        RetroArchNCI.send_nci_command (.known .VERSION) [] (outcomes k) true = none) →
      RetroArchNCI.wait_for_ready outcomes attempts = false) ∧
    (∀ k < attempts,
      RetroArchNCI.send_nci_command (.known .VERSION) [] (outcomes k) true ≠ none →
      RetroArchNCI.wait_for_ready outcomes attempts = true) := by
  constructor
  · intro h
    exact waitLoop_false outcomes attempts 0 (by intro k hk; simpa using h k hk)
  · intro k hk hne
    exact waitLoop_true outcomes attempts 0 k hk (by simpa using hne)

theorem wait_for_ready_poll_semantics_witness :
    RetroArchNCI.wait_for_ready (fun _ => .timeout) 2 = false ∧
    RetroArchNCI.wait_for_ready
      (fun i => if i = 1 then .received [0x31] else .timeout) 3 = true :=
  ⟨(wait_for_ready_poll_semantics (fun _ => .timeout) 2).1 (by decide),
    (wait_for_ready_poll_semantics
      (fun i => if i = 1 then .received [0x31] else .timeout) 3).2 1 (by decide) (by decide)⟩

/-- Claim C9: the `-1` failure guard applies only when exactly one byte
token is present. With two or more byte tokens, `-1` is parsed by
`int(·, 16)` as the integer `-1`, so the response decodes to an integer
instead of the no-value signal; on `READ_CORE_MEMORY 100 -1 00` the
result is the integer `-1`. -/
theorem read_core_memory_minus_one_guard_scope :
    pyIntHex "-1".toList = some (-1) ∧
    RetroArchNCI.read_core_memory_parse (some "READ_CORE_MEMORY 100 -1 00".toList) =
      some (-1) ∧
    (∀ (r : List Char) (vals : List Int),
      2 ≤ ((pySplit r).drop 2).length →
      "-1".toList ∈ (pySplit r).drop 2 →
      parseAllHex ((pySplit r).drop 2) = some vals →
      RetroArchNCI.read_core_memory_parse (some r) = some (leAssemble vals)) := by
  refine ⟨by decide, by decide, ?_⟩
  intro r vals hlen hmem hvals
  simp only [RetroArchNCI.read_core_memory_parse]
  have hdl := List.length_drop 2 (pySplit r)
  rw [if_neg (by omega)]
  have hg : (pySplit r).drop 2 ≠ ["-1".toList] := by
    intro h
    rw [h] at hlen
    simp at hlen
  rw [if_neg hg]
  exact assembleLE_eq_of_parseAllHex _ vals 0 0 hvals

theorem read_core_memory_minus_one_guard_scope_witness :
    2 ≤ ((pySplit "READ_CORE_MEMORY 100 -1 00".toList).drop 2).length ∧
    "-1".toList ∈ (pySplit "READ_CORE_MEMORY 100 -1 00".toList).drop 2 ∧
    parseAllHex ((pySplit "READ_CORE_MEMORY 100 -1 00".toList).drop 2) = some [-1, 0] ∧
    RetroArchNCI.read_core_memory_parse (some "READ_CORE_MEMORY 100 -1 00".toList) =
      some (-1) :=
  ⟨by decide, by decide, by decide,
    (read_core_memory_minus_one_guard_scope.2.2 _ [-1, 0]
      (by decide) (by decide) (by decide)).trans (by decide)⟩
